import Mathlib

/-!
Verification of the Bell-state error-correction simulator.

The development shallowly embeds the two source modules:
  * `src/bell_circuit.py`  — the `BellCircuit` builder class,
  * `src/simulations.py`   — the simulation orchestrator,
and proves or refutes the frozen specification claims about them.

Python state is made explicit: the builder object becomes the `BellState`
structure, exceptions become the `Except PyError` monad, and the external
qasm backend becomes a state-threading parameter `execB : β → List Gate → Counts × β`
(mirroring `execute(circuit, backend, shots=1000)` which consumes the
backend object fetched inside `run_one_combination`).
-/

/-- Address of a physical element of the register model:
`primary g` is `self.qubits[g]` (g is 0-based), `anc g k` is
`self.anc_qubit[g][k]` (both 0-based). -/
inductive Q where
  | primary (g : Nat)
  | anc (g : Nat) (k : Nat)
deriving DecidableEq

/-- One gate operation appended to the qiskit circuit.  `symb` models the
opaque `Instruction(name, nQubits, 0, [])` placeholders used in symbolic
error mode; `measure` models `circuit.measure(self.qubits[:], self.cbits[:])`. -/
inductive Gate where
  | h (q : Q)
  | x (q : Q)
  | z (q : Q)
  | cx (c t : Q)
  | ccx (c1 c2 t : Q)
  | barrier
  | measure
  | symb (name : String) (nQubits : Nat) (targets : List Q)
deriving DecidableEq

/-- The Python exceptions raised by the source: `ValueError(msg)`,
`Exception(msg)`, and the implicit `IndexError` raised by indexing the
empty `self.anc_qubit` list. -/
inductive PyError where
  | valueError (msg : String)
  | exception (msg : String)
  | indexError
deriving DecidableEq

/-- The observable state of a `BellCircuit` object: `ancSizes = none`
models `self.anc_qubit == []`, `ancSizes = some (n1, n2)` models the two
allocated ancilla registers with their sizes; `gates` is the gate sequence
of `self.circuit` (the two primary qubits and the two classical bits are
always present and are left implicit). -/
structure BellState where
  ancSizes : Option (Nat × Nat)
  gates : List Gate
deriving DecidableEq

/-- `BellCircuit.__init__(n_anc_qubit1, n_anc_qubit2)`: if either count is
zero no ancilla registers are allocated at all, otherwise one register per
group with the requested sizes. -/
def BellCircuit.init (n_anc_qubit1 n_anc_qubit2 : Nat) : BellState :=
  { ancSizes := if n_anc_qubit1 = 0 ∨ n_anc_qubit2 = 0 then none
                else some (n_anc_qubit1, n_anc_qubit2),
    gates := [] }

/-- `self.anc_qubit[g - 1].size if len(self.anc_qubit) > 0 else 0` —
the ancilla count of group `g ∈ {1, 2}` (0 when no ancillas exist). -/
def ancCount (s : BellState) (g : Nat) : Nat :=
  match s.ancSizes with
  | none => 0
  | some sz => if g = 1 then sz.1 else sz.2

/-- Append gates to the builder's current circuit (`self.circuit.<gate>(...)`). -/
def appendGates (s : BellState) (gs : List Gate) : BellState :=
  { s with gates := s.gates ++ gs }

/-- `BellCircuit.add_zero_bf_corr(qubit, in_place=True)`.  Returns the
snapshot circuit together with the builder state after the call. -/
def add_zero_bf_corr (s : BellState) (qubit : Nat) (in_place : Bool := true) :
    Except PyError (List Gate × BellState) :=
  if qubit ∉ ([1, 2] : List Nat) then
    .error (.valueError ("There are only 2 qubits, so " ++ toString qubit ++
      " is not a valid choice." ++ "Please insert 1 or 2!"))
  else
    match s.ancSizes with
    | none => .error .indexError
    | some sz =>
      if (if qubit = 1 then sz.1 else sz.2) < 1 then
        .error (.exception ("This method requires one ancilla per each qubit. " ++
          "Currently qubit " ++ toString qubit ++ " has " ++
          toString (if qubit = 1 then sz.1 else sz.2) ++ " ancillas."))
      else
        let circuit := s.gates ++
          [Gate.cx (Q.primary (qubit - 1)) (Q.anc (qubit - 1) 0),
           Gate.cx (Q.anc (qubit - 1) 0) (Q.primary (qubit - 1))]
        .ok (circuit, if in_place then { s with gates := circuit } else s)

/-- `BellCircuit.add_x_pf_corr(qubit, in_place=True)`. -/
def add_x_pf_corr (s : BellState) (qubit : Nat) (in_place : Bool := true) :
    Except PyError (List Gate × BellState) :=
  if qubit ∉ ([1, 2] : List Nat) then
    .error (.valueError ("There are only 2 qubits, so " ++ toString qubit ++
      " is not a valid choice." ++ "Please insert 1 or 2!"))
  else
    match s.ancSizes with
    | none => .error .indexError
    | some sz =>
      if (if qubit = 1 then sz.1 else sz.2) < 1 then
        .error (.exception ("This method requires one ancilla per each qubit. " ++
          "Currently qubit " ++ toString qubit ++ " has " ++
          toString (if qubit = 1 then sz.1 else sz.2) ++ " ancillas."))
      else
        let circuit := s.gates ++
          [Gate.h (Q.primary (qubit - 1)),
           Gate.cx (Q.primary (qubit - 1)) (Q.anc (qubit - 1) 0),
           Gate.cx (Q.anc (qubit - 1) 0) (Q.primary (qubit - 1)),
           Gate.h (Q.primary (qubit - 1))]
        .ok (circuit, if in_place then { s with gates := circuit } else s)

/-- `BellCircuit.add_zero_bf_corr_with_repetition(qubit, in_place=True)`. -/
def add_zero_bf_corr_with_repetition (s : BellState) (qubit : Nat)
    (in_place : Bool := true) : Except PyError (List Gate × BellState) :=
  if qubit ∉ ([1, 2] : List Nat) then
    .error (.valueError ("There are only 2 qubits, so " ++ toString qubit ++
      " is not a valid choice." ++ "Please insert 1 or 2!"))
  else
    match s.ancSizes with
    | none => .error .indexError
    | some sz =>
      if (if qubit = 1 then sz.1 else sz.2) < 2 then
        .error (.exception ("This method requires two ancilla per each qubit. " ++
          "Currently qubit " ++ toString qubit ++ " has " ++
          toString (if qubit = 1 then sz.1 else sz.2) ++ " ancillas."))
      else
        let circuit := s.gates ++
          [Gate.cx (Q.primary (qubit - 1)) (Q.anc (qubit - 1) 0),
           Gate.cx (Q.primary (qubit - 1)) (Q.anc (qubit - 1) 1),
           Gate.ccx (Q.anc (qubit - 1) 0) (Q.anc (qubit - 1) 1) (Q.primary (qubit - 1))]
        .ok (circuit, if in_place then { s with gates := circuit } else s)

/-- `BellCircuit.add_x_pf_corr_with_repetition(qubit, in_place=True)`. -/
def add_x_pf_corr_with_repetition (s : BellState) (qubit : Nat)
    (in_place : Bool := true) : Except PyError (List Gate × BellState) :=
  if qubit ∉ ([1, 2] : List Nat) then
    .error (.valueError ("There are only 2 qubits, so " ++ toString qubit ++
      " is not a valid choice." ++ "Please insert 1 or 2!"))
  else
    match s.ancSizes with
    | none => .error .indexError
    | some sz =>
      if (if qubit = 1 then sz.1 else sz.2) < 2 then
        .error (.exception ("This method requires two ancillas per each qubit. " ++
          "Currently qubit " ++ toString qubit ++ " has " ++
          toString (if qubit = 1 then sz.1 else sz.2) ++ " ancillas."))
      else
        let circuit := s.gates ++
          [Gate.h (Q.primary (qubit - 1)),
           Gate.cx (Q.primary (qubit - 1)) (Q.anc (qubit - 1) 0),
           Gate.cx (Q.primary (qubit - 1)) (Q.anc (qubit - 1) 1),
           Gate.ccx (Q.anc (qubit - 1) 0) (Q.anc (qubit - 1) 1) (Q.primary (qubit - 1)),
           Gate.h (Q.primary (qubit - 1))]
        .ok (circuit, if in_place then { s with gates := circuit } else s)

/-- `BellCircuit.add_error_gate(qubit, gate)`: appends a `z` or `x` gate;
any other gate string (including `i`) appends nothing. -/
def add_error_gate (s : BellState) (qubit : Q) (gate : String) : BellState :=
  if gate = "z" then { s with gates := s.gates ++ [Gate.z qubit] }
  else if gate = "x" then { s with gates := s.gates ++ [Gate.x qubit] }
  else s

/-- `BellCircuit.add_error(qubit, error_gate)` where `qubit = (group, index)`:
validates the group and the index bound, then applies the error gate to the
primary qubit (`index = 0`) or the `index`-th ancilla (1-indexed). -/
def add_error (s : BellState) (qubit : Nat × Nat) (error_gate : String) :
    Except PyError BellState :=
  if qubit.1 ∉ ([1, 2] : List Nat) then
    .error (.valueError (toString qubit.1 ++
      " is not a valid choice as qubit value for error error." ++ "Please insert 1 or 2!"))
  else if (s.ancSizes.isSome = true ∧ ancCount s qubit.1 < qubit.2)
      ∨ (s.ancSizes = none ∧ qubit.2 ≠ 0) then
    .error (.valueError ("In the error correction method  for qubit " ++
      toString qubit.1 ++ " there are " ++ toString (ancCount s qubit.1) ++
      " ancillas, so " ++ toString qubit.2 ++ " is out of index for applying the error."))
  else if qubit.2 = 0 then
    .ok (add_error_gate s (Q.primary (qubit.1 - 1)) error_gate)
  else
    .ok (add_error_gate s (Q.anc (qubit.1 - 1) (qubit.2 - 1)) error_gate)

/-- `BellCircuit.add_measurement(in_pace=True)` (the flag is spelled
`in_pace` in the source). -/
def add_measurement (s : BellState) (in_pace : Bool := true) :
    List Gate × BellState :=
  let circuit := s.gates ++
    [Gate.cx (Q.primary 0) (Q.primary 1), Gate.h (Q.primary 0), Gate.measure]
  (circuit, if in_pace then { s with gates := circuit } else s)

/-- `BellCircuit._prepare_repetition(qubit, ancillas)` for the group `g`
(0-based) whose ancilla register holds `n` qubits.  The qiskit broadcast
`cx(q, ancillas[a:b])` becomes one `cx` per slice index. -/
def prepare_repetition (s : BellState) (g n : Nat) : BellState :=
  appendGates s
    ([Gate.cx (Q.primary g) (Q.anc g 2), Gate.cx (Q.primary g) (Q.anc g 5),
      Gate.h (Q.primary g), Gate.h (Q.anc g 2), Gate.h (Q.anc g 5), Gate.barrier]
     ++ ((List.range n).take 2).map (fun i => Gate.cx (Q.primary g) (Q.anc g i))
     ++ (((List.range n).drop 3).take 2).map (fun i => Gate.cx (Q.anc g 2) (Q.anc g i))
     ++ ((List.range n).drop 6).map (fun i => Gate.cx (Q.anc g 5) (Q.anc g i))
     ++ [Gate.barrier])

/-- `BellCircuit._add_shor_correction(qubit, ancillas)` for the group `g`
(0-based) whose ancilla register holds `n` qubits. -/
def add_shor_correction (s : BellState) (g n : Nat) : BellState :=
  appendGates s
    (((List.range n).take 2).map (fun i => Gate.cx (Q.primary g) (Q.anc g i))
     ++ (((List.range n).drop 3).take 2).map (fun i => Gate.cx (Q.anc g 2) (Q.anc g i))
     ++ ((List.range n).drop 6).map (fun i => Gate.cx (Q.anc g 5) (Q.anc g i))
     ++ [Gate.barrier,
         Gate.ccx (Q.anc g 0) (Q.anc g 1) (Q.primary g),
         Gate.ccx (Q.anc g 3) (Q.anc g 4) (Q.anc g 2),
         Gate.ccx (Q.anc g 6) (Q.anc g 7) (Q.anc g 5),
         Gate.barrier,
         Gate.h (Q.primary g), Gate.h (Q.anc g 2), Gate.h (Q.anc g 5),
         Gate.cx (Q.primary g) (Q.anc g 2), Gate.cx (Q.primary g) (Q.anc g 5),
         Gate.barrier,
         Gate.ccx (Q.anc g 2) (Q.anc g 5) (Q.primary g),
         Gate.barrier])

/-- The `for qubit, error in errors: self.add_error(qubit, error)` loop. -/
def addErrors (s : BellState) (errors : List ((Nat × Nat) × String)) :
    Except PyError BellState :=
  match errors with
  | [] => .ok s
  | (qubit, error) :: rest => do
      let s' ← add_error s qubit error
      addErrors s' rest

/-- `BellCircuit.create_circuit_with_no_correction(errors, symb_err=False)`. -/
def create_circuit_with_no_correction (s : BellState)
    (errors : List ((Nat × Nat) × String)) (symb_err : Bool := false) :
    Except PyError BellState := do
  let s := appendGates s [Gate.h (Q.primary 0), Gate.barrier]
  let s ←
    if symb_err then
      pure (appendGates s
        [Gate.symb "err_1" 1 [Q.primary 0], Gate.symb "err_2" 1 [Q.primary 1],
         Gate.barrier])
    else do
      let s ← addErrors s errors
      pure (appendGates s [Gate.barrier])
  let s := appendGates s [Gate.cx (Q.primary 0) (Q.primary 1), Gate.barrier]
  pure (add_measurement s).2

/-- `BellCircuit.create_circuit_with_simple_correction(errors, symb_err=False)`. -/
def create_circuit_with_simple_correction (s : BellState)
    (errors : List ((Nat × Nat) × String)) (symb_err : Bool := false) :
    Except PyError BellState :=
  match s.ancSizes with
  | none => .error .indexError
  | some sz =>
    if sz.1 < 1 ∨ sz.2 < 1 then
      .error (.exception ("This method requires one ancilla per each qubit. " ++
        "Currently qubit1 has " ++ toString sz.1 ++ " ancillas " ++
        "and qubit2 has " ++ toString sz.2 ++ " ancillas."))
    else do
      let s := appendGates s [Gate.h (Q.primary 0), Gate.barrier]
      let s ←
        if symb_err then
          pure (appendGates s
            [Gate.symb "err_1" 1 [Q.primary 0], Gate.symb "err_2" 1 [Q.primary 1],
             Gate.barrier])
        else do
          let s ← addErrors s errors
          pure (appendGates s [Gate.barrier])
      let p1 ← add_x_pf_corr s 1
      let s := appendGates p1.2 [Gate.barrier]
      let p2 ← add_zero_bf_corr s 2
      let s := appendGates p2.2 [Gate.barrier]
      let s := appendGates s [Gate.cx (Q.primary 0) (Q.primary 1), Gate.barrier]
      pure (add_measurement s).2

/-- `BellCircuit.create_circuit_with_simple_repetition(errors, symb_err=False)`. -/
def create_circuit_with_simple_repetition (s : BellState)
    (errors : List ((Nat × Nat) × String)) (symb_err : Bool := false) :
    Except PyError BellState :=
  match s.ancSizes with
  | none => .error .indexError
  | some sz =>
    if sz.1 < 2 ∨ sz.2 < 2 then
      .error (.exception ("This method requires two ancillas per each qubit. " ++
        "Currently qubit1 has " ++ toString sz.1 ++ " ancillas " ++
        "and qubit2 has " ++ toString sz.2 ++ " ancillas."))
    else do
      let s := appendGates s [Gate.h (Q.primary 0), Gate.barrier]
      let s ←
        if symb_err then
          pure (appendGates s
            [Gate.symb "err_1" 3 (Q.primary 0 :: (List.range sz.1).map (Q.anc 0)),
             Gate.symb "err_2" 3 (Q.primary 1 :: (List.range sz.2).map (Q.anc 1)),
             Gate.barrier])
        else do
          let s ← addErrors s errors
          pure (appendGates s [Gate.barrier])
      let p1 ← add_x_pf_corr_with_repetition s 1
      let s := appendGates p1.2 [Gate.barrier]
      let p2 ← add_zero_bf_corr_with_repetition s 2
      let s := appendGates p2.2 [Gate.barrier]
      let s := appendGates s [Gate.cx (Q.primary 0) (Q.primary 1), Gate.barrier]
      pure (add_measurement s).2

/-- `BellCircuit.create_circuit_with_shor_correction(errors, symb_err=False)`. -/
def create_circuit_with_shor_correction (s : BellState)
    (errors : List ((Nat × Nat) × String)) (symb_err : Bool := false) :
    Except PyError BellState :=
  match s.ancSizes with
  | none => .error .indexError
  | some sz =>
    if sz.1 < 8 ∨ sz.2 < 8 then
      .error (.exception ("This method requires eight ancillas per each qubit. " ++
        "Currently qubit1 has " ++ toString sz.1 ++ " ancillas " ++
        "and qubit2 has " ++ toString sz.2 ++ " ancillas."))
    else do
      let s := appendGates s [Gate.h (Q.primary 0), Gate.barrier]
      let s := prepare_repetition s 0 sz.1
      let s := prepare_repetition s 1 sz.2
      let s ←
        if symb_err then
          pure (appendGates s
            [Gate.symb "err_1" 9 (Q.primary 0 :: (List.range sz.1).map (Q.anc 0)),
             Gate.symb "err_2" 9 (Q.primary 1 :: (List.range sz.2).map (Q.anc 1)),
             Gate.barrier])
        else do
          let s ← addErrors s errors
          pure (appendGates s [Gate.barrier])
      let s := add_shor_correction s 0 sz.1
      let s := add_shor_correction s 1 sz.2
      let s := appendGates s [Gate.cx (Q.primary 0) (Q.primary 1), Gate.barrier]
      pure (add_measurement s).2

/-- The measurement-outcome frequency map `Dict[str, int]` returned by the
backend, as an insertion-ordered association list. -/
abbrev Counts := List (String × Nat)

/-- Python list indexing `l[i]` for a non-negative index: raises
`IndexError` when out of range. -/
def listGet {α : Type} (l : List α) (i : Nat) : Except PyError α :=
  match l[i]? with
  | some a => .ok a
  | none => .error .indexError

/-- The canonical error key
`f'[({i1}, {g1}), ({i2}, {g2})]'` built by `run_one_combination`. -/
def mkErrKey (i1 : Nat) (g1 : String) (i2 : Nat) (g2 : String) : String :=
  "[(" ++ toString i1 ++ ", " ++ g1 ++ "), (" ++ toString i2 ++ ", " ++ g2 ++ ")]"

/-- `errors = ['i', 'x', 'z']` as defined in `simulations.py`. -/
def gateNames : List String := ["i", "x", "z"]

/-- The circuit-building part of `run_one_combination(n_ancillas,
correction_type, errors)`: constructs the `BellCircuit`, the canonical
error key, and the per-scheme circuit; `execute` then runs the circuit
exactly once on the result. -/
def build_one_combination (n_ancillas : Nat) (correction_type : String)
    (errors : List ((Nat × Nat) × String)) :
    Except PyError (List Gate × String) := do
  let qc := BellCircuit.init n_ancillas n_ancillas
  let e0 ← listGet errors 0
  let e1 ← listGet errors 1
  let error := mkErrKey e0.1.2 e0.2 e1.1.2 e1.2
  if correction_type = "simple" then do
    let s ← create_circuit_with_simple_correction qc [((1, 0), e0.2), ((2, 0), e1.2)]
    pure (s.gates, mkErrKey 0 e0.2 0 e1.2)
  else if correction_type = "repetition_simple" then do
    let s ← create_circuit_with_simple_repetition qc errors
    pure (s.gates, error)
  else if correction_type = "shor" then do
    let s ← create_circuit_with_shor_correction qc errors
    pure (s.gates, error)
  else do
    let s ← create_circuit_with_no_correction qc errors
    pure (s.gates, error)

/-- `run_one_combination(n_ancillas, correction_type, errors)`.  The
external backend is the state-threading parameter `execB`; it is invoked
exactly once per call, after the circuit is built. -/
def run_one_combination {β : Type} (execB : β → List Gate → Counts × β)
    (b : β) (n_ancillas : Nat) (correction_type : String)
    (errors : List ((Nat × Nat) × String)) :
    Except PyError (Counts × String × β) :=
  match build_one_combination n_ancillas correction_type errors with
  | .error e => .error e
  | .ok (circ, error) =>
    let p := execB b circ
    .ok (p.1, error, p.2)

/-- `get_circuit_to_print(n_ancillas, correction_type)`; the returned
qiskit circuit object is the final builder state. -/
def get_circuit_to_print (n_ancillas : Nat) (correction_type : String) :
    Except PyError BellState :=
  let qc := BellCircuit.init n_ancillas n_ancillas
  if correction_type = "simple" then
    create_circuit_with_simple_correction qc [] true
  else if correction_type = "repetition_simple" then
    create_circuit_with_simple_repetition qc [] true
  else if correction_type = "shor" then
    create_circuit_with_shor_correction qc [] true
  else
    create_circuit_with_no_correction qc [] true

/-- `all_counts[key] += value` on a `defaultdict(int)` (also the
`if key in d: d[key] += value else: d[key] = value` pattern). -/
def addCount (m : Counts) (key : String) (value : Nat) : Counts :=
  match m with
  | [] => [(key, value)]
  | (k, v) :: rest =>
      if k = key then (k, v + value) :: rest else (k, v) :: addCount rest key value

/-- `for key, value in counts.items(): m[key] += value`. -/
def mergeCounts (m : Counts) (counts : Counts) : Counts :=
  counts.foldl (fun acc p => addCount acc p.1 p.2) m

/-- `error in err_to_counts`. -/
def containsKey (ec : List (String × Counts)) (key : String) : Bool :=
  ec.any (fun p => p.1 = key)

/-- The `err_to_counts` update of `run_random_errors`: merge into the
existing entry when the key is present, otherwise insert the fresh counts. -/
def updateErrCounts (ec : List (String × Counts)) (error : String)
    (counts : Counts) : List (String × Counts) :=
  if containsKey ec error then
    ec.map (fun p => if p.1 = error then (p.1, mergeCounts p.2 counts) else p)
  else ec ++ [(error, counts)]

/-- The nested enumeration of `run_all_combinations`:
`for qubit_group_1 in range(n+1): for qubit_group_2 in range(n+1):
for err_1 in errors: for err_2 in errors`. -/
def allConfigs (n_ancillas : Nat) : List (Nat × Nat × String × String) :=
  (List.range (n_ancillas + 1)).flatMap (fun qubit_group_1 =>
    (List.range (n_ancillas + 1)).flatMap (fun qubit_group_2 =>
      gateNames.flatMap (fun err_1 =>
        gateNames.map (fun err_2 => (qubit_group_1, qubit_group_2, err_1, err_2)))))

/-- The loop body of `run_all_combinations` over the remaining
configurations, accumulating `(all_counts, err_to_counts, backend state)`.
A configuration whose canonical key is already present is `continue`d:
its counts are discarded, but the backend has already executed it. -/
def run_all_loop {β : Type} (execB : β → List Gate → Counts × β)
    (n_ancillas : Nat) (correction_type : String) :
    List (Nat × Nat × String × String) →
    Counts × List (String × Counts) × β →
    Except PyError (Counts × List (String × Counts) × β)
  | [], acc => .ok acc
  | (qubit_group_1, qubit_group_2, err_1, err_2) :: rest, (all_counts, err_to_counts, b) =>
    match run_one_combination execB b n_ancillas correction_type
        [((1, qubit_group_1), err_1), ((2, qubit_group_2), err_2)] with
    | .error e => .error e
    | .ok (counts, error, b') =>
      if containsKey err_to_counts error then
        run_all_loop execB n_ancillas correction_type rest (all_counts, err_to_counts, b')
      else
        run_all_loop execB n_ancillas correction_type rest
          (mergeCounts all_counts counts, err_to_counts ++ [(error, counts)], b')

/-- `run_all_combinations(n_ancillas, correction_type)`. -/
def run_all_combinations {β : Type} (execB : β → List Gate → Counts × β)
    (b : β) (n_ancillas : Nat) (correction_type : String) :
    Except PyError (Counts × List (String × Counts) × β) :=
  run_all_loop execB n_ancillas correction_type (allConfigs n_ancillas) ([], [], b)

/-- Abstract model of Python's (deterministic) global `random` module:
`seedFn` is `random.seed(seed)`, `randint r a b` is `random.randint(a, b)`
in generator state `r`, and `choices r population weights` is
`random.choices(population, weights=weights)` (returning a list). -/
structure RngModel (ρ σ ω : Type) where
  seedFn : σ → ρ
  randint : ρ → Nat → Nat → Nat × ρ
  choices : ρ → List String → ω → List String × ρ

/-- The `for it in range(iterations)` loop of `run_random_errors`,
threading `(all_counts, err_to_counts, backend state, rng state)`. -/
def run_random_loop {ρ σ ω β : Type} (rng : RngModel ρ σ ω)
    (execB : β → List Gate → Counts × β) (n_ancillas : Nat)
    (correction_type : String) (probabilities : ω) :
    Nat → Counts × List (String × Counts) × β × ρ →
    Except PyError (Counts × List (String × Counts) × β × ρ)
  | 0, acc => .ok acc
  | iterations + 1, (all_counts, err_to_counts, b, r) =>
    let q1 := rng.randint r 0 n_ancillas
    let q2 := rng.randint q1.2 0 n_ancillas
    let c1 := rng.choices q2.2 gateNames probabilities
    let c2 := rng.choices c1.2 gateNames probabilities
    match listGet c1.1 0 with
    | .error e => .error e
    | .ok err_1 =>
      match listGet c2.1 0 with
      | .error e => .error e
      | .ok err_2 =>
        match run_one_combination execB b n_ancillas correction_type
            [((1, q1.1), err_1), ((2, q2.1), err_2)] with
        | .error e => .error e
        | .ok (counts, error, b') =>
          run_random_loop rng execB n_ancillas correction_type probabilities iterations
            (mergeCounts all_counts counts, updateErrCounts err_to_counts error counts,
             b', c2.2)

/-- `run_random_errors(n_ancillas, correction_type, iterations,
probabilities, seed)`.  `r0` is the incoming state of the process-wide
generator; the function begins with `random.seed(seed)`, which replaces it. -/
def run_random_errors {ρ σ ω β : Type} (rng : RngModel ρ σ ω)
    (execB : β → List Gate → Counts × β) (b : β) (r0 : ρ)
    (n_ancillas : Nat) (correction_type : String) (iterations : Nat)
    (probabilities : ω) (seed : σ) :
    Except PyError (Counts × List (String × Counts) × β × ρ) :=
  let r := rng.seedFn seed
  run_random_loop rng execB n_ancillas correction_type probabilities iterations
    ([], [], b, r)

/-- Whether a computation raised `ValueError` (a raise with a descriptive
message in the source). -/
def isValueError {α : Type} : Except PyError α → Bool
  | .error (.valueError _) => true
  | _ => false

/-- Whether a computation raised `Exception` (a raise with a descriptive
message in the source). -/
def isExceptionError {α : Type} : Except PyError α → Bool
  | .error (.exception _) => true
  | _ => false

/-- A backend instantiation whose state is an invocation counter: each
`execute` call increments it, so the final counter is the number of
backend invocations. -/
def countingExec (f : List Gate → Counts) : Nat → List Gate → Counts × Nat :=
  fun b c => (f c, b + 1)

/-- A fixed 1000-shot outcome used to instantiate the opaque backend. -/
def shots1000 : List Gate → Counts :=
  fun _ => [("00", 1000)]

/-- Replay of the `all_counts` accumulation over the entries recorded in
`err_to_counts`: each stored canonical key contributes its counts once. -/
def aggregateTotals (ec : List (String × Counts)) : Counts :=
  ec.foldl (fun m kv => mergeCounts m kv.2) []

/-- Expected result of the exhaustive no-correction run with `n_ancillas = 0`
on the counting backend: nine configurations, nine distinct canonical keys,
nine backend invocations. -/
def noCorrRunAll0 : Counts × List (String × Counts) × Nat :=
  ([("00", 9000)],
   [("[(0, i), (0, i)]", [("00", 1000)]),
    ("[(0, i), (0, x)]", [("00", 1000)]),
    ("[(0, i), (0, z)]", [("00", 1000)]),
    ("[(0, x), (0, i)]", [("00", 1000)]),
    ("[(0, x), (0, x)]", [("00", 1000)]),
    ("[(0, x), (0, z)]", [("00", 1000)]),
    ("[(0, z), (0, i)]", [("00", 1000)]),
    ("[(0, z), (0, x)]", [("00", 1000)]),
    ("[(0, z), (0, z)]", [("00", 1000)])],
   9)

/-- C7: constructing a `BellCircuit` with `n_anc_group1 = 0` or
`n_anc_group2 = 0` allocates no ancilla registers at all, so both groups
have zero ancillas regardless of the other count. -/
theorem C7_zero_ancilla_construction (n1 n2 : Nat) (h : n1 = 0 ∨ n2 = 0) :
    (BellCircuit.init n1 n2).ancSizes = none
    ∧ ancCount (BellCircuit.init n1 n2) 1 = 0
    ∧ ancCount (BellCircuit.init n1 n2) 2 = 0 := by
  unfold BellCircuit.init ancCount
  rw [if_pos h]
  exact ⟨rfl, rfl, rfl⟩

/-- Witness for C7 at the concrete construction `BellCircuit(0, 5)`. -/
theorem C7_zero_ancilla_construction_witness :
    (BellCircuit.init 0 5).ancSizes = none
    ∧ ancCount (BellCircuit.init 0 5) 1 = 0
    ∧ ancCount (BellCircuit.init 0 5) 2 = 0 :=
  C7_zero_ancilla_construction 0 5 (Or.inl rfl)

/-- C8 counterexample: `BellCircuit.__init__` accepts unequal nonzero
counts and allocates differing ancilla counts for the two groups —
`BellCircuit(1, 2)` holds 1 ancilla for group 1 and 2 for group 2. -/
theorem C8_counterexample :
    ancCount (BellCircuit.init 1 2) 1 = 1
    ∧ ancCount (BellCircuit.init 1 2) 2 = 2
    ∧ (1 : Nat) ≠ 2 := by decide

/-- C8 (amended): every construction with equal arguments — the only form
the orchestrator ever uses, `BellCircuit(n_ancillas, n_ancillas)` — yields
identical ancilla counts for the two groups; the constructor itself does
not reject asymmetric counts. -/
theorem C8_symmetric_arguments (n : Nat) :
    ancCount (BellCircuit.init n n) 1 = ancCount (BellCircuit.init n n) 2 := by
  rcases eq_or_ne n 0 with h | h
  · simp [BellCircuit.init, ancCount, h]
  · simp [BellCircuit.init, ancCount, h]

/-- C6: two invocations of `run_random_errors` with the same seed,
iteration count and probability weights — but arbitrary (and possibly
different) prior states `r1`, `r2` of the process-wide generator — produce
identical results, because the function begins by reseeding: the sampled
configuration sequence, the aggregated totals and the per-key counts all
coincide (the backend is the same state-threaded executor in both runs). -/
theorem C6_reseed_determinism {ρ σ ω β : Type} (rng : RngModel ρ σ ω)
    (execB : β → List Gate → Counts × β) (b : β) (r1 r2 : ρ)
    (n_ancillas : Nat) (correction_type : String) (iterations : Nat)
    (probabilities : ω) (seed : σ) :
    run_random_errors rng execB b r1 n_ancillas correction_type iterations
        probabilities seed
      = run_random_errors rng execB b r2 n_ancillas correction_type iterations
        probabilities seed := rfl

/-- C2 counterexample: `add_error` has no in-place flag — it
unconditionally mutates the builder's circuit (here appending an `x` gate)
and offers no way to obtain a snapshot leaving the builder untouched, so
the mutate-or-snapshot choice is not controlled by a flag for this
operation. -/
theorem C2_counterexample :
    add_error (BellCircuit.init 1 1) (1, 0) "x"
      = .ok { ancSizes := some (1, 1), gates := [Gate.x (Q.primary 0)] }
    ∧ ({ ancSizes := some (1, 1), gates := [Gate.x (Q.primary 0)] } : BellState)
      ≠ BellCircuit.init 1 1 :=
  ⟨rfl, by decide⟩

/-- C2 (amended): the four correction gadgets and `add_measurement` are
controlled by an explicit in-place flag — with the flag set the builder's
circuit becomes the returned snapshot, without it the builder is left
untouched — while `add_error` has no such flag and always mutates the
builder's circuit in place. -/
theorem C2_snapshot_flag (s : BellState) (g : Nat) (b : Bool) :
    ((add_zero_bf_corr s g b).map (fun p => p.2)
      = (add_zero_bf_corr s g b).map (fun p => if b then { s with gates := p.1 } else s))
  ∧ ((add_x_pf_corr s g b).map (fun p => p.2)
      = (add_x_pf_corr s g b).map (fun p => if b then { s with gates := p.1 } else s))
  ∧ ((add_zero_bf_corr_with_repetition s g b).map (fun p => p.2)
      = (add_zero_bf_corr_with_repetition s g b).map
          (fun p => if b then { s with gates := p.1 } else s))
  ∧ ((add_x_pf_corr_with_repetition s g b).map (fun p => p.2)
      = (add_x_pf_corr_with_repetition s g b).map
          (fun p => if b then { s with gates := p.1 } else s))
  ∧ ((add_measurement s b).2 = if b then { s with gates := (add_measurement s b).1 } else s)
  ∧ add_error s (1, 0) "x" = .ok { s with gates := s.gates ++ [Gate.x (Q.primary 0)] } := by
  refine ⟨?_, ?_, ?_, ?_, rfl, ?_⟩
  · unfold add_zero_bf_corr
    repeat' split
    all_goals rfl
  · unfold add_x_pf_corr
    repeat' split
    all_goals rfl
  · unfold add_zero_bf_corr_with_repetition
    repeat' split
    all_goals rfl
  · unfold add_x_pf_corr_with_repetition
    repeat' split
    all_goals rfl
  · simp [add_error, add_error_gate, ancCount]

/-- C9: the error gate kind is never validated — any gate string other
than `x` and `z` (such as `i` or an arbitrary string) makes
`add_error_gate` a no-op, and `add_error` on a group/index passing the
index validation succeeds without appending any gate and without raising. -/
theorem C9_error_gate_not_validated (s : BellState) (g k : Nat) (q : Q)
    (gate : String) (hx : gate ≠ "x") (hz : gate ≠ "z") (hg : g = 1 ∨ g = 2)
    (hk : match s.ancSizes with
          | some sz => k ≤ (if g = 1 then sz.1 else sz.2)
          | none => k = 0) :
    add_error_gate s q gate = s ∧ add_error s (g, k) gate = .ok s := by
  have hgate : ∀ q' : Q, add_error_gate s q' gate = s := by
    intro q'
    unfold add_error_gate
    rw [if_neg hz, if_neg hx]
  refine ⟨hgate q, ?_⟩
  unfold add_error
  rw [if_neg (by rcases hg with h | h <;> simp [h])]
  have hbound : ¬ ((s.ancSizes.isSome = true ∧ ancCount s (g, k).1 < (g, k).2)
      ∨ (s.ancSizes = none ∧ (g, k).2 ≠ 0)) := by
    cases hs : s.ancSizes with
    | none =>
      rw [hs] at hk
      simp [hs, hk]
    | some sz =>
      rw [hs] at hk
      simp only [ancCount, hs]
      push_neg
      refine ⟨fun _ => ?_, fun h => absurd h (by simp)⟩
      simpa [Nat.not_lt] using hk
  rw [if_neg hbound]
  by_cases hk0 : (g, k).2 = 0
  · rw [if_pos hk0, hgate]
  · rw [if_neg hk0, hgate]

/-- Witness for C9: `add_error((1, 1), 'i')` on a circuit with one ancilla
per group leaves the gate sequence unchanged and raises nothing. -/
theorem C9_error_gate_not_validated_witness :
    add_error_gate (BellCircuit.init 1 1) (Q.primary 0) "i" = BellCircuit.init 1 1
    ∧ add_error (BellCircuit.init 1 1) (1, 1) "i" = .ok (BellCircuit.init 1 1) :=
  C9_error_gate_not_validated (BellCircuit.init 1 1) 1 1 (Q.primary 0) "i"
    (by decide) (by decide) (Or.inl rfl) (by simp [BellCircuit.init])

/-- C3: on a circuit whose groups were allocated `n` ancillas each,
`add_error` at index `n` succeeds and targets the `n`-th ancilla
(1-indexed), any index exceeding `n` raises a `ValueError`; with zero
ancillas index 0 targets the primary qubit and any nonzero index raises a
`ValueError`; a group outside `{1, 2}` raises a `ValueError`. -/
theorem C3_add_error_boundaries (s : BellState) (n g k : Nat) (gate : String) :
    (s.ancSizes = some (n, n) → (g = 1 ∨ g = 2) →
        (1 ≤ n →
          add_error s (g, n) gate = .ok (add_error_gate s (Q.anc (g - 1) (n - 1)) gate))
      ∧ (n < k → isValueError (add_error s (g, k) gate) = true))
  ∧ (s.ancSizes = none → (g = 1 ∨ g = 2) →
        add_error s (g, 0) gate = .ok (add_error_gate s (Q.primary (g - 1)) gate)
      ∧ (k ≠ 0 → isValueError (add_error s (g, k) gate) = true))
  ∧ (g ≠ 1 → g ≠ 2 → isValueError (add_error s (g, k) gate) = true) := by
  have hcount : ∀ hs : s.ancSizes = some (n, n), ancCount s g = n := by
    intro hs
    simp [ancCount, hs, ite_self]
  refine ⟨fun hs hg => ⟨fun hn => ?_, fun hk => ?_⟩,
          fun hs hg => ⟨?_, fun hk => ?_⟩, fun h1 h2 => ?_⟩
  · unfold add_error
    rw [if_neg (by rcases hg with h | h <;> simp [h])]
    rw [if_neg (by simp [hcount hs, hs])]
    rw [if_neg (by simpa using Nat.pos_iff_ne_zero.mp hn)]
  · unfold add_error isValueError
    rw [if_neg (by rcases hg with h | h <;> simp [h])]
    rw [if_pos (Or.inl ⟨by simp [hs], by simpa [hcount hs] using hk⟩)]
  · unfold add_error
    rw [if_neg (by rcases hg with h | h <;> simp [h])]
    rw [if_neg (by simp [hs])]
    rw [if_pos rfl]
  · unfold add_error isValueError
    rw [if_neg (by rcases hg with h | h <;> simp [h])]
    rw [if_pos (Or.inr ⟨hs, hk⟩)]
  · unfold add_error isValueError
    rw [if_pos (by simp [h1, h2])]

/-- Witness for C3 on `BellCircuit(1, 1)` (one ancilla per group) and
`BellCircuit(0, 0)` (no ancillas): index 1 succeeds on the first ancilla,
index 2 raises, index 1 with no ancillas raises, group 3 raises. -/
theorem C3_add_error_boundaries_witness :
    add_error (BellCircuit.init 1 1) (1, 1) "x"
      = .ok (add_error_gate (BellCircuit.init 1 1) (Q.anc 0 0) "x")
    ∧ isValueError (add_error (BellCircuit.init 1 1) (1, 2) "x") = true
    ∧ add_error (BellCircuit.init 0 0) (2, 0) "z"
      = .ok (add_error_gate (BellCircuit.init 0 0) (Q.primary 1) "z")
    ∧ isValueError (add_error (BellCircuit.init 0 0) (2, 1) "z") = true
    ∧ isValueError (add_error (BellCircuit.init 1 1) (3, 0) "x") = true := by
  refine ⟨?_, ?_, ?_, ?_, ?_⟩
  · exact ((C3_add_error_boundaries (BellCircuit.init 1 1) 1 1 2 "x").1
      (by simp [BellCircuit.init]) (Or.inl rfl)).1 (by decide)
  · exact ((C3_add_error_boundaries (BellCircuit.init 1 1) 1 1 2 "x").1
      (by simp [BellCircuit.init]) (Or.inl rfl)).2 (by decide)
  · exact ((C3_add_error_boundaries (BellCircuit.init 0 0) 0 2 1 "z").2.1
      (by simp [BellCircuit.init]) (Or.inr rfl)).1
  · exact ((C3_add_error_boundaries (BellCircuit.init 0 0) 0 2 1 "z").2.1
      (by simp [BellCircuit.init]) (Or.inr rfl)).2 (by decide)
  · exact (C3_add_error_boundaries (BellCircuit.init 1 1) 1 3 0 "x").2.2
      (by decide) (by decide)

/-- C4 counterexample: on a `BellCircuit` constructed with zero ancillas,
`add_zero_bf_corr` fails with the bare `IndexError` from indexing the
empty ancilla-register list — not with a descriptive configuration error
(neither of the two raise-with-message kinds). -/
theorem C4_counterexample :
    add_zero_bf_corr (BellCircuit.init 0 0) 1 true = .error .indexError
    ∧ isValueError (add_zero_bf_corr (BellCircuit.init 0 0) 1 true) = false
    ∧ isExceptionError (add_zero_bf_corr (BellCircuit.init 0 0) 1 true) = false :=
  ⟨rfl, rfl, rfl⟩

/-- C4 (amended): every correction gadget raises before emitting any gate
(so the builder's circuit is untouched) when the group or the ancilla
allocation is invalid: a `ValueError` for `group ∉ {1, 2}`, a descriptive
`Exception` when ancillas are allocated but fewer than the gadget
requires, and a bare `IndexError` (no descriptive message) when zero
ancillas were allocated at construction. -/
theorem C4_gadget_validation (s : BellState) (g : Nat) (b : Bool) (a c : Nat) :
    (g ≠ 1 → g ≠ 2 →
        isValueError (add_zero_bf_corr s g b) = true
      ∧ isValueError (add_x_pf_corr s g b) = true
      ∧ isValueError (add_zero_bf_corr_with_repetition s g b) = true
      ∧ isValueError (add_x_pf_corr_with_repetition s g b) = true)
  ∧ (s.ancSizes = some (a, c) → (g = 1 ∨ g = 2) →
        ((if g = 1 then a else c) < 1 →
            isExceptionError (add_zero_bf_corr s g b) = true
          ∧ isExceptionError (add_x_pf_corr s g b) = true)
      ∧ ((if g = 1 then a else c) < 2 →
            isExceptionError (add_zero_bf_corr_with_repetition s g b) = true
          ∧ isExceptionError (add_x_pf_corr_with_repetition s g b) = true))
  ∧ (s.ancSizes = none → (g = 1 ∨ g = 2) →
        add_zero_bf_corr s g b = .error .indexError
      ∧ add_x_pf_corr s g b = .error .indexError
      ∧ add_zero_bf_corr_with_repetition s g b = .error .indexError
      ∧ add_x_pf_corr_with_repetition s g b = .error .indexError) := by
  have hgrp : ∀ h1 : g ≠ 1, ∀ h2 : g ≠ 2, g ∉ ([1, 2] : List Nat) := by
    intro h1 h2
    simp [h1, h2]
  have hmem : ∀ hg : g = 1 ∨ g = 2, ¬ g ∉ ([1, 2] : List Nat) := by
    intro hg
    rcases hg with h | h <;> simp [h]
  refine ⟨fun h1 h2 => ⟨?_, ?_, ?_, ?_⟩,
          fun hs hg => ⟨fun hlt => ⟨?_, ?_⟩, fun hlt => ⟨?_, ?_⟩⟩,
          fun hs hg => ⟨?_, ?_, ?_, ?_⟩⟩
  · unfold add_zero_bf_corr isValueError
    rw [if_pos (hgrp h1 h2)]
  · unfold add_x_pf_corr isValueError
    rw [if_pos (hgrp h1 h2)]
  · unfold add_zero_bf_corr_with_repetition isValueError
    rw [if_pos (hgrp h1 h2)]
  · unfold add_x_pf_corr_with_repetition isValueError
    rw [if_pos (hgrp h1 h2)]
  · unfold add_zero_bf_corr isExceptionError
    rw [if_neg (hmem hg), hs]
    simp only []
    rw [if_pos hlt]
  · unfold add_x_pf_corr isExceptionError
    rw [if_neg (hmem hg), hs]
    simp only []
    rw [if_pos hlt]
  · unfold add_zero_bf_corr_with_repetition isExceptionError
    rw [if_neg (hmem hg), hs]
    simp only []
    rw [if_pos hlt]
  · unfold add_x_pf_corr_with_repetition isExceptionError
    rw [if_neg (hmem hg), hs]
    simp only []
    rw [if_pos hlt]
  · unfold add_zero_bf_corr
    rw [if_neg (hmem hg), hs]
  · unfold add_x_pf_corr
    rw [if_neg (hmem hg), hs]
  · unfold add_zero_bf_corr_with_repetition
    rw [if_neg (hmem hg), hs]
  · unfold add_x_pf_corr_with_repetition
    rw [if_neg (hmem hg), hs]

/-- Witness for C4: group 3 raises a `ValueError`; with one ancilla per
group the two-ancilla repetition gadget raises a descriptive `Exception`;
with zero allocated ancillas the gadget raises the bare `IndexError`. -/
theorem C4_gadget_validation_witness :
    isValueError (add_zero_bf_corr (BellCircuit.init 1 1) 3 true) = true
    ∧ isExceptionError (add_zero_bf_corr_with_repetition (BellCircuit.init 1 1) 1 true) = true
    ∧ add_x_pf_corr (BellCircuit.init 0 0) 2 true = .error .indexError := by
  refine ⟨?_, ?_, ?_⟩
  · exact ((C4_gadget_validation (BellCircuit.init 1 1) 3 true 1 1).1
      (by decide) (by decide)).1
  · exact (((C4_gadget_validation (BellCircuit.init 1 1) 1 true 1 1).2.1
      (by simp [BellCircuit.init]) (Or.inl rfl)).2 (by decide)).1
  · exact ((C4_gadget_validation (BellCircuit.init 0 0) 2 true 0 0).2.2
      (by simp [BellCircuit.init]) (Or.inr rfl)).2.1

/-- C5: for the `simple` correction scheme, `run_one_combination` coerces
both error indices to 0 — the run is identical to one requested with
indices 0, whatever indices the caller supplied — and whenever it returns,
the canonical key reports `(0, gate)` for both sides using the caller's
gate kinds. -/
theorem C5_simple_index_coercion {β : Type} (execB : β → List Gate → Counts × β)
    (b : β) (n k1 k2 : Nat) (g1 g2 : String) (counts : Counts) (key : String)
    (b' : β)
    (h : run_one_combination execB b n "simple" [((1, k1), g1), ((2, k2), g2)]
      = .ok (counts, key, b')) :
    run_one_combination execB b n "simple" [((1, k1), g1), ((2, k2), g2)]
      = run_one_combination execB b n "simple" [((1, 0), g1), ((2, 0), g2)]
    ∧ key = mkErrKey 0 g1 0 g2 := by
  constructor
  · rfl
  · have hb : build_one_combination n "simple" [((1, k1), g1), ((2, k2), g2)]
        = (create_circuit_with_simple_correction (BellCircuit.init n n)
            [((1, 0), g1), ((2, 0), g2)]).bind
            (fun s => pure (s.gates, mkErrKey 0 g1 0 g2)) := rfl
    unfold run_one_combination at h
    rw [hb] at h
    cases hc : create_circuit_with_simple_correction (BellCircuit.init n n)
        [((1, 0), g1), ((2, 0), g2)] with
    | error e =>
      rw [hc] at h
      exact absurd h (by simp [Except.bind])
    | ok s =>
      rw [hc] at h
      have h2 : (Except.ok ((execB b s.gates).1, mkErrKey 0 g1 0 g2, (execB b s.gates).2)
          : Except PyError (Counts × String × β)) = .ok (counts, key, b') := h
      have h3 := Except.ok.inj h2
      exact (congrArg (fun t => t.2.1) h3).symm

/-- Witness for C5: a concrete `simple` run with a requested ancilla index
1 equals the run with index 0 and reports the zero-index canonical key. -/
theorem C5_simple_index_coercion_witness :
    run_one_combination (countingExec shots1000) 0 1 "simple" [((1, 1), "x"), ((2, 0), "z")]
      = run_one_combination (countingExec shots1000) 0 1 "simple" [((1, 0), "x"), ((2, 0), "z")]
    ∧ "[(0, x), (0, z)]" = mkErrKey 0 "x" 0 "z" := by
  have h : run_one_combination (countingExec shots1000) 0 1 "simple"
      [((1, 1), "x"), ((2, 0), "z")]
      = .ok ([("00", 1000)], "[(0, x), (0, z)]", 1) := by rfl
  exact C5_simple_index_coercion (countingExec shots1000) 0 1 1 0 "x" "z"
    [("00", 1000)] "[(0, x), (0, z)]" 1 h

/-- C10: any correction type outside `{simple, repetition_simple, shor}`
falls through to the no-correction branch in both `run_one_combination`
and `get_circuit_to_print`, silently and without error: an unrecognized
correction type is indistinguishable from `no_correction` there. -/
theorem C10_unrecognized_correction_type {β : Type}
    (execB : β → List Gate → Counts × β) (b : β) (n : Nat) (ct : String)
    (errors : List ((Nat × Nat) × String))
    (h1 : ct ≠ "simple") (h2 : ct ≠ "repetition_simple") (h3 : ct ≠ "shor") :
    run_one_combination execB b n ct errors
      = run_one_combination execB b n "no_correction" errors
    ∧ get_circuit_to_print n ct = get_circuit_to_print n "no_correction" := by
  constructor
  · unfold run_one_combination build_one_combination
    simp only [if_neg h1, if_neg h2, if_neg h3,
      if_neg (by decide : ¬ ("no_correction" : String) = "simple"),
      if_neg (by decide : ¬ ("no_correction" : String) = "repetition_simple"),
      if_neg (by decide : ¬ ("no_correction" : String) = "shor")]
  · unfold get_circuit_to_print
    simp only [if_neg h1, if_neg h2, if_neg h3,
      if_neg (by decide : ¬ ("no_correction" : String) = "simple"),
      if_neg (by decide : ¬ ("no_correction" : String) = "repetition_simple"),
      if_neg (by decide : ¬ ("no_correction" : String) = "shor")]

/-- Witness for C10 with the unrecognized correction type `bogus`. -/
theorem C10_unrecognized_correction_type_witness :
    run_one_combination (countingExec shots1000) 0 1 "bogus" [((1, 0), "x"), ((2, 0), "z")]
      = run_one_combination (countingExec shots1000) 0 1 "no_correction"
          [((1, 0), "x"), ((2, 0), "z")]
    ∧ get_circuit_to_print 1 "bogus" = get_circuit_to_print 1 "no_correction" :=
  C10_unrecognized_correction_type (countingExec shots1000) 0 1 "bogus"
    [((1, 0), "x"), ((2, 0), "z")] (by decide) (by decide) (by decide)

theorem allConfigs_eq_product (n : Nat) :
    allConfigs n
      = (List.range (n + 1)) ×ˢ ((List.range (n + 1)) ×ˢ (gateNames ×ˢ gateNames)) := by
  simp only [allConfigs, SProd.sprod, List.product, List.map_flatMap, List.flatMap_map,
    List.map_map, Function.comp]
  rfl

theorem allConfigs_nodup (n : Nat) : (allConfigs n).Nodup := by
  rw [allConfigs_eq_product]
  exact (List.nodup_range _).product
    ((List.nodup_range _).product ((by decide : gateNames.Nodup).product (by decide)))

theorem mem_allConfigs (n i1 i2 : Nat) (g1 g2 : String) :
    (i1, i2, g1, g2) ∈ allConfigs n
      ↔ i1 ≤ n ∧ i2 ≤ n ∧ g1 ∈ gateNames ∧ g2 ∈ gateNames := by
  rw [allConfigs_eq_product]
  simp [List.mem_product, Nat.lt_succ_iff]

theorem allConfigs_length (n : Nat) :
    (allConfigs n).length = (n + 1) * (n + 1) * 9 := by
  rw [allConfigs_eq_product]
  simp [List.length_product, gateNames]
  ring

theorem not_mem_of_containsKey_false {ec : List (String × Counts)} {k : String}
    (h : containsKey ec k = false) : k ∉ ec.map Prod.fst := by
  intro hmem
  rcases List.mem_map.mp hmem with ⟨p, hp, hpk⟩
  have ht : containsKey ec k = true := by
    simp only [containsKey, List.any_eq_true, decide_eq_true_eq]
    exact ⟨p, hp, hpk⟩
  rw [ht] at h
  exact absurd h (by decide)

theorem aggregateTotals_append (ec : List (String × Counts)) (p : String × Counts) :
    aggregateTotals (ec ++ [p]) = mergeCounts (aggregateTotals ec) p.2 := by
  simp [aggregateTotals, List.foldl_append]

theorem run_one_counting {f : List Gate → Counts} {b : Nat} {n : Nat} {ct : String}
    {errs : List ((Nat × Nat) × String)} {counts : Counts} {key : String} {b' : Nat}
    (h : run_one_combination (countingExec f) b n ct errs = .ok (counts, key, b')) :
    b' = b + 1 := by
  unfold run_one_combination at h
  cases hb : build_one_combination n ct errs with
  | error e =>
    rw [hb] at h
    exact absurd h (by simp)
  | ok pr =>
    rw [hb] at h
    have h2 : (Except.ok (f pr.1, pr.2, b + 1)
        : Except PyError (Counts × String × Nat)) = .ok (counts, key, b') := h
    exact (congrArg (fun t => t.2.2) (Except.ok.inj h2)).symm

theorem run_all_loop_spec (f : List Gate → Counts) (n : Nat) (ct : String) :
    ∀ (configs : List (Nat × Nat × String × String)) (all : Counts)
      (ec : List (String × Counts)) (cnt : Nat)
      (res : Counts × List (String × Counts) × Nat),
      all = aggregateTotals ec → (ec.map Prod.fst).Nodup →
      run_all_loop (countingExec f) n ct configs (all, ec, cnt) = .ok res →
      res.1 = aggregateTotals res.2.1 ∧ (res.2.1.map Prod.fst).Nodup
        ∧ res.2.2 = cnt + configs.length := by
  intro configs
  induction configs with
  | nil =>
    intro all ec cnt res hall hnd h
    have h2 : (Except.ok (all, ec, cnt)
        : Except PyError (Counts × List (String × Counts) × Nat)) = .ok res := h
    rw [← Except.ok.inj h2]
    exact ⟨hall, hnd, by simp⟩
  | cons cfg rest ih =>
    intro all ec cnt res hall hnd h
    obtain ⟨i1, i2, e1, e2⟩ := cfg
    simp only [run_all_loop] at h
    cases hro : run_one_combination (countingExec f) cnt n ct
        [((1, i1), e1), ((2, i2), e2)] with
    | error e =>
      rw [hro] at h
      exact absurd h (by simp)
    | ok out =>
      obtain ⟨counts, key, b'⟩ := out
      rw [hro] at h
      have h2 : (if containsKey ec key = true
            then run_all_loop (countingExec f) n ct rest (all, ec, b')
            else run_all_loop (countingExec f) n ct rest
              (mergeCounts all counts, ec ++ [(key, counts)], b')) = .ok res := h
      have hb' : b' = cnt + 1 := run_one_counting hro
      by_cases hck : containsKey ec key = true
      · rw [if_pos hck] at h2
        obtain ⟨h1, hx2, h3⟩ := ih all ec b' res hall hnd h2
        exact ⟨h1, hx2, by simp only [List.length_cons]; omega⟩
      · rw [if_neg hck] at h2
        have hckf : containsKey ec key = false := by
          cases hcs : containsKey ec key
          · rfl
          · exact absurd hcs hck
        have hmerge : mergeCounts all counts = aggregateTotals (ec ++ [(key, counts)]) := by
          rw [aggregateTotals_append, hall]
        have hnd' : ((ec ++ [(key, counts)]).map Prod.fst).Nodup := by
          rw [List.map_append]
          refine List.Nodup.append hnd (by simp) ?_
          simp only [List.map_cons, List.map_nil, List.disjoint_singleton]
          exact not_mem_of_containsKey_false hckf
        obtain ⟨h1, hx2, h3⟩ := ih (mergeCounts all counts) (ec ++ [(key, counts)]) b' res
          hmerge hnd' h2
        exact ⟨h1, hx2, by simp only [List.length_cons]; omega⟩

set_option maxRecDepth 8000

/-- C1 counterexample: for `n_ancillas = 1` with the `simple` scheme the
exhaustive run performs 36 backend invocations (one per raw configuration,
counted by the instrumented backend state) while only 9 distinct canonical
keys exist — so a configuration whose canonical key was already seen is
re-run, and the backend executor is invoked four times per canonical key,
not at most once. -/
theorem C1_counterexample :
    (run_all_combinations (countingExec shots1000) 0 1 "simple").map
      (fun res => (res.2.2, res.2.1.length)) = .ok (36, 9)
    ∧ 9 < 36 := ⟨rfl, by decide⟩

/-- C1 (amended): the exhaustive run enumerates every configuration of
indices `≤ n_ancillas` and gates in `{i, x, z}` exactly once and invokes
the backend exactly once per raw configuration — `(n+1)·(n+1)·9` times in
total, so possibly several times per canonical key; a configuration whose
canonical key was already seen is run but its results are discarded, so
the recorded canonical keys are pairwise distinct and the aggregated
totals count each canonical key exactly once. -/
theorem C1_exhaustive_dedup (f : List Gate → Counts) (n : Nat) (ct : String)
    (res : Counts × List (String × Counts) × Nat) (i1 i2 : Nat) (g1 g2 : String)
    (hi1 : i1 ≤ n) (hi2 : i2 ≤ n) (hg1 : g1 ∈ gateNames) (hg2 : g2 ∈ gateNames)
    (h : run_all_combinations (countingExec f) 0 n ct = .ok res) :
    res.2.2 = (allConfigs n).length
    ∧ (allConfigs n).length = (n + 1) * (n + 1) * 9
    ∧ (i1, i2, g1, g2) ∈ allConfigs n
    ∧ (allConfigs n).Nodup
    ∧ (res.2.1.map Prod.fst).Nodup
    ∧ res.1 = aggregateTotals res.2.1 := by
  unfold run_all_combinations at h
  obtain ⟨h1, h2, h3⟩ := run_all_loop_spec f n ct (allConfigs n) [] [] 0 res rfl
    (by simp) h
  exact ⟨by omega, allConfigs_length n,
    (mem_allConfigs n i1 i2 g1 g2).mpr ⟨hi1, hi2, hg1, hg2⟩,
    allConfigs_nodup n, h2, h1⟩

/-- Witness for C1 on the concrete exhaustive no-correction run with
`n_ancillas = 0`: nine raw configurations, nine backend invocations, nine
distinct canonical keys, totals aggregating each key once. -/
theorem C1_exhaustive_dedup_witness :
    run_all_combinations (countingExec shots1000) 0 0 "no_correction" = .ok noCorrRunAll0
    ∧ noCorrRunAll0.2.2 = (allConfigs 0).length
    ∧ (allConfigs 0).length = 1 * 1 * 9
    ∧ (0, 0, "i", "x") ∈ allConfigs 0
    ∧ (allConfigs 0).Nodup
    ∧ (noCorrRunAll0.2.1.map Prod.fst).Nodup
    ∧ noCorrRunAll0.1 = aggregateTotals noCorrRunAll0.2.1 := by
  have h : run_all_combinations (countingExec shots1000) 0 0 "no_correction"
      = .ok noCorrRunAll0 := by rfl
  have hc := C1_exhaustive_dedup shots1000 0 "no_correction" noCorrRunAll0 0 0 "i" "x"
    (by decide) (by decide) (by decide) (by decide) h
  exact ⟨h, hc.1, hc.2.1, hc.2.2.1, hc.2.2.2.1, hc.2.2.2.2.1, hc.2.2.2.2.2⟩
